import Mathlib

/-
  Shallow embedding of `src/submarine_system.py` (class `SubmarineSystem`
  and its inner class `_Submarine`), together with theorems settling the
  specification claims about it.

  Modelling conventions:
  * A Python position `[vertical, horizontal]` (a two-element list of ints)
    is an `Int × Int` pair; `position[0]` is `.1`, `position[1]` is `.2`.
  * `collections.deque(maxlen=50)` is a `List` whose append drops the
    oldest (leftmost) element once capacity is reached (`dequeAppend`).
  * The registry dict `_submarines` is an insertion-ordered association
    list `List (String × Submarine)`; `dict.get` is first-match lookup.
  * Python exceptions are an explicit `PyError` value in `Except`.
  * File-backed streams (movement reports, sensor data, secret stores)
    are passed in as explicit lists, modelling the file contents.
  * `hashlib.sha256(...).hexdigest()` on a string is an abstract function
    `h : String → String` passed as a parameter: the claims about the
    nuke authorizer only concern how the digests are combined and
    compared, never properties of SHA-256 itself.
-/

namespace SubmarineSys

/-- A position `(vertical, horizontal)`: the Python list `[p0, p1]`. -/
abbrev Pos := Int × Int

/-- One movement-log record `(old_position, direction, distance, new_position)`. -/
abbrev MovementLogEntry := Pos × String × Nat × Pos

/-- `_Submarine.max_move_logs = 50`. -/
def max_move_logs : Nat := 50

/-- The state of `SubmarineSystem._Submarine`. -/
structure Submarine where
  serial_number : String
  position : Pos
  movement_log : List MovementLogEntry
  deriving DecidableEq

/-- `_Submarine.__init__`: position `[0, 0]`, empty movement log. -/
def mkSubmarine (sn : String) : Submarine :=
  { serial_number := sn, position := (0, 0), movement_log := [] }

/-- Append to a `deque(maxlen=cap)`: once the deque is full the oldest
(leftmost) element is evicted. -/
def dequeAppend {α : Type} (cap : Nat) (log : List α) (e : α) : List α :=
  if log.length < cap then log ++ [e] else log.drop 1 ++ [e]

/-- The body of `_Submarine.move` (the position update alone): `up` does
`position[0] += dist`, `down` does `position[0] -= dist`, `forward` does
`position[1] += dist`, anything else only prints a warning. -/
def moveRaw (p : Pos) (dir : String) (dist : Nat) : Pos :=
  if dir = "up" then (p.1 + dist, p.2)
  else if dir = "down" then (p.1 - dist, p.2)
  else if dir = "forward" then (p.1, p.2 + dist)
  else p

/-- `_Submarine.move` as decorated by `_log_movement`: the wrapper reads
the position before and after the wrapped call and unconditionally appends
`(old_pos, dir, dist, new_pos)` to the bounded movement log. -/
def Submarine.move (sub : Submarine) (dir : String) (dist : Nat) : Submarine :=
  { sub with
      position := moveRaw sub.position dir dist,
      movement_log := dequeAppend max_move_logs sub.movement_log
        (sub.position, dir, dist, moveRaw sub.position dir dist) }

/-- A sequence of `move` calls on one submarine. -/
def runMoves (sub : Submarine) (moves : List (String × Nat)) : Submarine :=
  moves.foldl (fun s m => s.move m.1 m.2) sub

/-- The full sequence of log records a sequence of `move` calls generates
(before any capacity eviction). -/
def entriesOf : Submarine → List (String × Nat) → List MovementLogEntry
  | _, [] => []
  | s, m :: rest =>
      (s.position, m.1, m.2, moveRaw s.position m.1 m.2) :: entriesOf (s.move m.1 m.2) rest

/-- The last `n` elements of a list. -/
def lastN {α : Type} (n : Nat) (xs : List α) : List α :=
  xs.drop (xs.length - n)

/-! ### Claims C1, C2, C9: the movement engine -/

/-- **C1, counterexample.** The claim says `move(e, "up", d)` *decreases*
the vertical coordinate by `d`. In the code `up` does `position[0] += dist`:
from `(0,0)`, `move "up" 5` lands on vertical `5`, not `-5`. -/
theorem c1_up_does_not_decrease_vertical :
    ((mkSubmarine "11111111-11").move "up" 5).position.1 ≠
      (mkSubmarine "11111111-11").position.1 - 5 := by
  decide

/-- **C1, amended.** `move` with `"up"` *increases* the vertical coordinate
by `d`, `"down"` decreases it by `d`, and `"forward"` increases the
horizontal coordinate by `d`; the other coordinate is unchanged in each
case. -/
theorem c1_move_deltas (sub : Submarine) (d : Nat) :
    ((sub.move "up" d).position.1 = sub.position.1 + d ∧
      (sub.move "up" d).position.2 = sub.position.2) ∧
    ((sub.move "down" d).position.1 = sub.position.1 - d ∧
      (sub.move "down" d).position.2 = sub.position.2) ∧
    ((sub.move "forward" d).position.2 = sub.position.2 + d ∧
      (sub.move "forward" d).position.1 = sub.position.1) := by
  refine ⟨⟨?_, ?_⟩, ⟨?_, ?_⟩, ⟨?_, ?_⟩⟩ <;> simp [Submarine.move, moveRaw]

/-- **C2, counterexample.** The claim says an invalid direction appends no
movement-log entry. The `_log_movement` wrapper appends unconditionally:
`move "left" 3` on a fresh submarine changes the (empty) log. -/
theorem c2_invalid_direction_still_logged :
    ((mkSubmarine "11111111-11").move "left" 3).movement_log ≠
      (mkSubmarine "11111111-11").movement_log := by
  decide

/-- **C2, amended.** For a direction outside `{"up", "down", "forward"}`,
`move` leaves the position unchanged but *does* append the record
`(old_pos, dir, dist, old_pos)` to the movement log (only a warning is
printed for the position update). -/
theorem c2_invalid_direction_no_move_but_logged
    (sub : Submarine) (dir : String) (d : Nat)
    (h : dir ≠ "up" ∧ dir ≠ "down" ∧ dir ≠ "forward") :
    (sub.move dir d).position = sub.position ∧
    (sub.move dir d).movement_log =
      dequeAppend max_move_logs sub.movement_log (sub.position, dir, d, sub.position) := by
  obtain ⟨h1, h2, h3⟩ := h
  have hraw : moveRaw sub.position dir d = sub.position := by
    simp [moveRaw, h1, h2, h3]
  constructor
  · simp [Submarine.move, hraw]
  · simp [Submarine.move, hraw]

/-- Witness for `c2_invalid_direction_no_move_but_logged` at `dir = "left"`. -/
theorem c2_invalid_direction_no_move_but_logged_witness :
    ((mkSubmarine "11111111-11").move "left" 3).position = (mkSubmarine "11111111-11").position ∧
    ((mkSubmarine "11111111-11").move "left" 3).movement_log =
      dequeAppend max_move_logs (mkSubmarine "11111111-11").movement_log
        ((mkSubmarine "11111111-11").position, "left", 3, (mkSubmarine "11111111-11").position) :=
  c2_invalid_direction_no_move_but_logged (mkSubmarine "11111111-11") "left" 3
    ⟨by decide, by decide, by decide⟩

/-! ### Claim C3: the bounded movement log -/

theorem dequeAppend_eq_lastN {α : Type} (cap : Nat) (log : List α) (e : α)
    (hpos : 0 < cap) (h : log.length ≤ cap) :
    dequeAppend cap log e = lastN cap (log ++ [e]) := by
  unfold dequeAppend lastN
  by_cases hlt : log.length < cap
  · rw [if_pos hlt]
    have h0 : (log ++ [e]).length - cap = 0 := by
      simp only [List.length_append, List.length_singleton]
      omega
    rw [h0, List.drop_zero]
  · rw [if_neg hlt]
    have h1 : (log ++ [e]).length - cap = 1 := by
      simp only [List.length_append, List.length_singleton]
      omega
    have h2 : (1 : Nat) ≤ log.length := by omega
    rw [h1, List.drop_append_of_le_length h2]

theorem length_lastN_le {α : Type} (n : Nat) (xs : List α) : (lastN n xs).length ≤ n := by
  simp only [lastN, List.length_drop]
  omega

theorem lastN_of_length_le {α : Type} (n : Nat) (xs : List α) (h : xs.length ≤ n) :
    lastN n xs = xs := by
  unfold lastN
  have h0 : xs.length - n = 0 := by omega
  rw [h0, List.drop_zero]

theorem lastN_lastN_append {α : Type} (n : Nat) (xs ys : List α) :
    lastN n (lastN n xs ++ ys) = lastN n (xs ++ ys) := by
  by_cases h : xs.length ≤ n
  · rw [lastN_of_length_le n xs h]
  · push_neg at h
    have hk : xs.length - n ≤ xs.length := Nat.sub_le _ _
    have h1 : lastN n xs ++ ys = (xs ++ ys).drop (xs.length - n) := by
      rw [List.drop_append_of_le_length hk, lastN]
    rw [lastN, h1, List.drop_drop]
    have h2 : xs.length - n + (((xs ++ ys).drop (xs.length - n)).length - n) =
        (xs ++ ys).length - n := by
      simp only [List.length_drop, List.length_append]
      omega
    rw [h2, lastN]

theorem Submarine.move_movement_log (sub : Submarine) (dir : String) (dist : Nat) :
    (sub.move dir dist).movement_log =
      dequeAppend max_move_logs sub.movement_log
        (sub.position, dir, dist, moveRaw sub.position dir dist) := rfl

theorem entriesOf_length (moves : List (String × Nat)) :
    ∀ s : Submarine, (entriesOf s moves).length = moves.length := by
  induction moves with
  | nil => intro s; rfl
  | cons m rest ih => intro s; simp [entriesOf, ih]

theorem runMoves_movement_log (moves : List (String × Nat)) :
    ∀ s : Submarine, s.movement_log.length ≤ max_move_logs →
      (runMoves s moves).movement_log =
        lastN max_move_logs (s.movement_log ++ entriesOf s moves) := by
  induction moves with
  | nil =>
    intro s h
    simp only [runMoves, List.foldl_nil, entriesOf, List.append_nil]
    rw [lastN_of_length_le _ _ h]
  | cons m rest ih =>
    intro s h
    have hd : (s.move m.1 m.2).movement_log =
        lastN max_move_logs
          (s.movement_log ++ [(s.position, m.1, m.2, moveRaw s.position m.1 m.2)]) := by
      rw [Submarine.move_movement_log, dequeAppend_eq_lastN _ _ _ (by decide) h]
    have hlen2 : (s.move m.1 m.2).movement_log.length ≤ max_move_logs := by
      rw [hd]; exact length_lastN_le _ _
    calc (runMoves s (m :: rest)).movement_log
        = (runMoves (s.move m.1 m.2) rest).movement_log := by
          simp [runMoves, List.foldl_cons]
      _ = lastN max_move_logs
            ((s.move m.1 m.2).movement_log ++ entriesOf (s.move m.1 m.2) rest) :=
          ih _ hlen2
      _ = lastN max_move_logs
            (lastN max_move_logs
              (s.movement_log ++ [(s.position, m.1, m.2, moveRaw s.position m.1 m.2)]) ++
              entriesOf (s.move m.1 m.2) rest) := by rw [hd]
      _ = lastN max_move_logs
            ((s.movement_log ++ [(s.position, m.1, m.2, moveRaw s.position m.1 m.2)]) ++
              entriesOf (s.move m.1 m.2) rest) := lastN_lastN_append _ _ _
      _ = lastN max_move_logs (s.movement_log ++ entriesOf s (m :: rest)) := by
          simp [entriesOf, List.append_assoc]

/-- **C3.** The movement log never exceeds capacity 50 (an invariant
preserved by every sequence of moves from a log within capacity), and
after 51 moves on a fresh submarine the log is exactly the generated
record sequence with the oldest record evicted: records 2 through 51,
in insertion order, 50 entries in all. -/
theorem c3_movement_log_capacity (sn : String) (moves : List (String × Nat))
    (hlen : moves.length = 51)
    (hvalid : ∀ m ∈ moves, m.1 = "up" ∨ m.1 = "down" ∨ m.1 = "forward") :
    (∀ (s : Submarine) (ms : List (String × Nat)),
        s.movement_log.length ≤ max_move_logs →
        (runMoves s ms).movement_log.length ≤ max_move_logs) ∧
    (runMoves (mkSubmarine sn) moves).movement_log =
      (entriesOf (mkSubmarine sn) moves).drop 1 ∧
    (runMoves (mkSubmarine sn) moves).movement_log.length = max_move_logs := by
  have hbound : ∀ (s : Submarine) (ms : List (String × Nat)),
      s.movement_log.length ≤ max_move_logs →
      (runMoves s ms).movement_log.length ≤ max_move_logs := by
    intro s ms h
    rw [runMoves_movement_log ms s h]
    exact length_lastN_le _ _
  have hinit : (mkSubmarine sn).movement_log.length ≤ max_move_logs := by
    simp [mkSubmarine, max_move_logs]
  have hlog : (runMoves (mkSubmarine sn) moves).movement_log =
      (entriesOf (mkSubmarine sn) moves).drop 1 := by
    rw [runMoves_movement_log moves _ hinit]
    have h0 : (mkSubmarine sn).movement_log = [] := rfl
    rw [h0, List.nil_append, lastN]
    rw [entriesOf_length, hlen]
    norm_num [max_move_logs]
  refine ⟨hbound, hlog, ?_⟩
  rw [hlog, List.length_drop, entriesOf_length, hlen]
  rfl

/-- Witness for `c3_movement_log_capacity`: 51 moves of `("up", 1)`. -/
theorem c3_movement_log_capacity_witness :
    (∀ (s : Submarine) (ms : List (String × Nat)),
        s.movement_log.length ≤ max_move_logs →
        (runMoves s ms).movement_log.length ≤ max_move_logs) ∧
    (runMoves (mkSubmarine "11111111-11") (List.replicate 51 ("up", 1))).movement_log =
      (entriesOf (mkSubmarine "11111111-11") (List.replicate 51 ("up", 1))).drop 1 ∧
    (runMoves (mkSubmarine "11111111-11") (List.replicate 51 ("up", 1))).movement_log.length =
      max_move_logs :=
  c3_movement_log_capacity "11111111-11" (List.replicate 51 ("up", 1))
    (by simp)
    (by
      intro m hm
      have h := List.eq_of_mem_replicate hm
      rw [h]
      exact Or.inl rfl)

/-- **C9.** `move "up" d` followed by `move "down" d` returns the vertical
coordinate to its original value, and the horizontal coordinate is
unchanged throughout. -/
theorem c9_up_down_round_trip (sub : Submarine) (d : Nat) :
    (sub.move "up" d).position.2 = sub.position.2 ∧
    ((sub.move "up" d).move "down" d).position.1 = sub.position.1 ∧
    ((sub.move "up" d).move "down" d).position.2 = sub.position.2 := by
  refine ⟨?_, ?_, ?_⟩ <;> simp [Submarine.move, moveRaw]

/-! ### The fleet system state and the weapon dispatcher (claims C4, C5) -/

/-- The Python exceptions the embedded operations can raise. -/
inductive PyError where
  | lookupError
  | attributeError
  deriving DecidableEq

/-- Result of `order_torpedo`: `True` (fired) or the blocking submarine. -/
inductive TorpedoResult where
  | fired
  | blocked (b : Submarine)
  deriving DecidableEq

instance {ε α : Type} [DecidableEq ε] [DecidableEq α] : DecidableEq (Except ε α) :=
  fun x y =>
    match x, y with
    | .error a, .error b =>
      if h : a = b then .isTrue (by rw [h]) else .isFalse (fun hh => h (Except.error.inj hh))
    | .ok a, .ok b =>
      if h : a = b then .isTrue (by rw [h]) else .isFalse (fun hh => h (Except.ok.inj hh))
    | .error _, .ok _ => .isFalse (fun hh => Except.noConfusion hh)
    | .ok _, .error _ => .isFalse (fun hh => Except.noConfusion hh)

/-- The state of a `SubmarineSystem` object: `_submarines` (an
insertion-ordered dict), `_occupied_positions` (a dict used as a set:
only `True` is ever stored) and `_collided_submarines`. -/
structure SystemState where
  submarines : List (String × Submarine)
  occupied_positions : List Pos
  collided_submarines : List Submarine
  deriving DecidableEq

/-- `SubmarineSystem._get_sub`: `self._submarines.get(serial_number)`,
first-match lookup in the insertion-ordered dict. -/
def get_sub (subs : List (String × Submarine)) (sn : String) : Option Submarine :=
  match subs with
  | [] => none
  | (k, v) :: rest => if k = sn then some v else get_sub rest sn

def SystemState.get_sub (sys : SystemState) (sn : String) : Option Submarine :=
  SubmarineSys.get_sub sys.submarines sn

/-- `up` arm of `_prevent_friendly_fire`: the other submarine shares the
horizontal coordinate and its vertical coordinate is ≥ the firing one's. -/
def blocksUp (f b : Submarine) : Bool :=
  f.position.2 == b.position.2 && decide (f.position.1 ≤ b.position.1)

/-- `down` arm: shares the horizontal coordinate, vertical ≤ the firing one's. -/
def blocksDown (f b : Submarine) : Bool :=
  f.position.2 == b.position.2 && decide (b.position.1 ≤ f.position.1)

/-- `forward` arm: shares the vertical coordinate, horizontal ≥ the firing one's. -/
def blocksForward (f b : Submarine) : Bool :=
  f.position.1 == b.position.1 && decide (f.position.2 ≤ b.position.2)

/-- One `for _, sub in system._submarines.items()` loop of
`_prevent_friendly_fire`. The `if sub == firing_sub: continue` identity
test skips exactly the registry entry whose key is the firing serial
(each dict entry is a distinct object, and `firing_sub` is the entry
stored under `sn`); when `firing_sub` is `None` nothing is skipped and
the first body iteration evaluates `firing_sub.position`, raising
`AttributeError`. -/
def scanLoop (pred : Submarine → Submarine → Bool) (sn : String)
    (firing : Option Submarine) :
    List (String × Submarine) → Except PyError (Option Submarine)
  | [] => .ok none
  | (k, sub) :: rest =>
    if firing.isSome && k == sn then scanLoop pred sn firing rest
    else
      match firing with
      | none => .error .attributeError
      | some f => if pred f sub then .ok (some sub) else scanLoop pred sn firing rest

/-- The `wrapper` of `_prevent_friendly_fire` up to the point where it
either returns the blocking submarine (`.ok (some b)`), falls through to
the wrapped function (`.ok none`), or raises (`.error`). -/
def prevent_friendly_fire (sys : SystemState) (sn : String) (dir : String) :
    Except PyError (Option Submarine) :=
  if dir = "up" then scanLoop blocksUp sn (sys.get_sub sn) sys.submarines
  else if dir = "down" then scanLoop blocksDown sn (sys.get_sub sn) sys.submarines
  else if dir = "forward" then scanLoop blocksForward sn (sys.get_sub sn) sys.submarines
  else .ok none

/-- `SubmarineSystem.order_torpedo` (decorated by `_prevent_friendly_fire`):
on friendly fire the blocker is returned; otherwise the wrapped body looks
the submarine up, raises `LookupError` if absent, fires (`fire_torpedo` is
a no-op) and returns `True`. -/
def order_torpedo (sys : SystemState) (sn : String) (dir : String) :
    Except PyError TorpedoResult :=
  match prevent_friendly_fire sys sn dir with
  | .error e => .error e
  | .ok (some b) => .ok (.blocked b)
  | .ok none =>
    match sys.get_sub sn with
    | none => .error .lookupError
    | some _ => .ok .fired

theorem scanLoop_cases (pred : Submarine → Submarine → Bool) (sn : String)
    (f : Submarine) (subs : List (String × Submarine)) :
    (scanLoop pred sn (some f) subs = .ok none ∧
      ∀ k b, (k, b) ∈ subs → k ≠ sn → pred f b = false) ∨
    (∃ b, scanLoop pred sn (some f) subs = .ok (some b) ∧
      ∃ k, (k, b) ∈ subs ∧ k ≠ sn ∧ pred f b = true) := by
  induction subs with
  | nil =>
    left
    exact ⟨rfl, by intro k b hmem; simp at hmem⟩
  | cons e rest ih =>
    obtain ⟨k0, sub0⟩ := e
    by_cases hk : k0 = sn
    · have hstep : scanLoop pred sn (some f) ((k0, sub0) :: rest) =
          scanLoop pred sn (some f) rest := by
        simp [scanLoop, hk]
      rcases ih with ⟨hnone, hall⟩ | ⟨b, hb, k, hk2, hne, hpred⟩
      · left
        refine ⟨by rw [hstep]; exact hnone, ?_⟩
        intro k b hmem hne
        rcases List.mem_cons.mp hmem with heq | hmem2
        · rw [Prod.mk.injEq] at heq
          exact absurd (heq.1.trans hk) hne
        · exact hall k b hmem2 hne
      · right
        exact ⟨b, by rw [hstep]; exact hb, k, List.mem_cons_of_mem _ hk2, hne, hpred⟩
    · have hstep : scanLoop pred sn (some f) ((k0, sub0) :: rest) =
          if pred f sub0 then .ok (some sub0) else scanLoop pred sn (some f) rest := by
        simp [scanLoop, hk]
      by_cases hp : pred f sub0 = true
      · right
        refine ⟨sub0, ?_, k0, List.mem_cons_self _ _, hk, hp⟩
        rw [hstep, if_pos hp]
      · have hstep2 : scanLoop pred sn (some f) ((k0, sub0) :: rest) =
            scanLoop pred sn (some f) rest := by
          rw [hstep, if_neg hp]
        rcases ih with ⟨hnone, hall⟩ | ⟨b, hb, k, hk2, hne, hpred⟩
        · left
          refine ⟨by rw [hstep2]; exact hnone, ?_⟩
          intro k b hmem hne
          rcases List.mem_cons.mp hmem with heq | hmem2
          · rw [Prod.mk.injEq] at heq
            rw [heq.2]
            exact eq_false_of_ne_true hp
          · exact hall k b hmem2 hne
        · right
          exact ⟨b, by rw [hstep2]; exact hb, k, List.mem_cons_of_mem _ hk2, hne, hpred⟩

/-- **C4.** For a registered firing submarine, `order_torpedo _ _ "forward"`
fires exactly when no other registered submarine shares the firing
submarine's vertical coordinate with horizontal ≥ the firer's; when such a
submarine exists the order is blocked and the returned blocker is itself
such a submarine. -/
theorem c4_order_torpedo_forward (sys : SystemState) (sn : String) (f : Submarine)
    (hget : sys.get_sub sn = some f) :
    ((∃ k b, (k, b) ∈ sys.submarines ∧ k ≠ sn ∧
        f.position.1 = b.position.1 ∧ f.position.2 ≤ b.position.2) →
      ∃ b, order_torpedo sys sn "forward" = .ok (.blocked b) ∧
        (∃ k, (k, b) ∈ sys.submarines ∧ k ≠ sn) ∧
        f.position.1 = b.position.1 ∧ f.position.2 ≤ b.position.2) ∧
    ((¬ ∃ k b, (k, b) ∈ sys.submarines ∧ k ≠ sn ∧
        f.position.1 = b.position.1 ∧ f.position.2 ≤ b.position.2) →
      order_torpedo sys sn "forward" = .ok .fired) := by
  have hpff : prevent_friendly_fire sys sn "forward" =
      scanLoop blocksForward sn (sys.get_sub sn) sys.submarines := by
    unfold prevent_friendly_fire
    rw [if_neg (by decide), if_neg (by decide), if_pos rfl]
  have hpred : ∀ b : Submarine, blocksForward f b = true ↔
      (f.position.1 = b.position.1 ∧ f.position.2 ≤ b.position.2) := by
    intro b
    simp [blocksForward]
  rcases scanLoop_cases blocksForward sn f sys.submarines with
    ⟨hnone, hall⟩ | ⟨b, hb, k, hmem, hne, hp⟩
  · constructor
    · intro ⟨k, b, hmem, hne, hprop⟩
      have := hall k b hmem hne
      rw [(hpred b).mpr hprop] at this
      exact absurd this (by decide)
    · intro _
      unfold order_torpedo
      rw [hpff, hget, hnone]
  · constructor
    · intro _
      refine ⟨b, ?_, ⟨k, hmem, hne⟩, (hpred b).mp hp⟩
      unfold order_torpedo
      rw [hpff, hget, hb]
    · intro hno
      exact absurd ⟨k, b, hmem, hne, (hpred b).mp hp⟩ hno

/-- Witness for `c4_order_torpedo_forward`: a fleet of two fresh
submarines, both at `(0, 0)`; the second blocks the first. -/
theorem c4_order_torpedo_forward_witness :
    ((∃ k b,
        (k, b) ∈ [("11111111-11", mkSubmarine "11111111-11"),
                  ("22222222-22", mkSubmarine "22222222-22")] ∧ k ≠ "11111111-11" ∧
        (mkSubmarine "11111111-11").position.1 = b.position.1 ∧
        (mkSubmarine "11111111-11").position.2 ≤ b.position.2) →
      ∃ b, order_torpedo
          ⟨[("11111111-11", mkSubmarine "11111111-11"),
            ("22222222-22", mkSubmarine "22222222-22")], [], []⟩
          "11111111-11" "forward" = .ok (.blocked b) ∧
        (∃ k, (k, b) ∈ [("11111111-11", mkSubmarine "11111111-11"),
                        ("22222222-22", mkSubmarine "22222222-22")] ∧ k ≠ "11111111-11") ∧
        (mkSubmarine "11111111-11").position.1 = b.position.1 ∧
        (mkSubmarine "11111111-11").position.2 ≤ b.position.2) ∧
    ((¬ ∃ k b,
        (k, b) ∈ [("11111111-11", mkSubmarine "11111111-11"),
                  ("22222222-22", mkSubmarine "22222222-22")] ∧ k ≠ "11111111-11" ∧
        (mkSubmarine "11111111-11").position.1 = b.position.1 ∧
        (mkSubmarine "11111111-11").position.2 ≤ b.position.2) →
      order_torpedo
          ⟨[("11111111-11", mkSubmarine "11111111-11"),
            ("22222222-22", mkSubmarine "22222222-22")], [], []⟩
          "11111111-11" "forward" = .ok .fired) :=
  c4_order_torpedo_forward
    ⟨[("11111111-11", mkSubmarine "11111111-11"),
      ("22222222-22", mkSubmarine "22222222-22")], [], []⟩
    "11111111-11" (mkSubmarine "11111111-11") (by decide)

/-- **C5.** The code at the claim's failing input: with one *other*
submarine registered, ordering a torpedo from an unregistered serial with
direction `"forward"` raises `AttributeError` (the friendly-fire guard
dereferences `None`), not the `LookupError` the claim requires; the
claimed `LookupError` is only reached when the registry is empty. -/
theorem c5_unregistered_firer_attribute_error :
    order_torpedo ⟨[("11111111-11", mkSubmarine "11111111-11")], [], []⟩
        "00000000-00" "forward" = .error .attributeError ∧
    order_torpedo ⟨[], [], []⟩ "00000000-00" "forward" = .error .lookupError := by
  constructor <;> decide

/-! ### Claim C6: the sensor fault aggregator -/

/-- `"0" in line`. -/
def has0 (s : String) : Bool := s.toList.contains '0'

/-- `line.count("0")`. -/
def countZeros (s : String) : Nat := s.toList.count '0'

/-- `errors.get(line)` on the insertion-ordered dict of fault entries.
Each stored value `(sensor_failures, error_occurences)` is a nonempty
Python dict, hence truthy, so `not errors.get(line)` in the source is
exactly a key-membership test. -/
def findErrorEntry : List (String × Nat × Nat) → String → Option (Nat × Nat)
  | [], _ => none
  | e :: rest, line => if e.1 = line then some e.2 else findErrorEntry rest line

/-- `errors[line]["error_occurences"] += 1`: bump the occurrence count of
the entry stored under `line` (keys are unique in a dict, so the first
match is the entry). -/
def bumpOccurrence : List (String × Nat × Nat) → String → List (String × Nat × Nat)
  | [], _ => []
  | e :: rest, line =>
    if e.1 = line then (e.1, e.2.1, e.2.2 + 1) :: rest
    else e :: bumpOccurrence rest line

/-- One iteration of the `for line in sub.sensor_data` loop of
`count_sensor_errors`: healthy lines are skipped, a new faulty line is
registered with its zero count and occurrence 1, a recurring faulty line
has its occurrence count bumped. -/
def sensorStep (errors : List (String × Nat × Nat)) (line : String) :
    List (String × Nat × Nat) :=
  if has0 line then
    if (findErrorEntry errors line).isSome then bumpOccurrence errors line
    else errors ++ [(line, countZeros line, 1)]
  else errors

/-- The dict built by `count_sensor_errors` over the whole sensor stream. -/
def sensorErrorsAssoc (lines : List String) : List (String × Nat × Nat) :=
  lines.foldl sensorStep []

/-- `SubmarineSystem.count_sensor_errors` on a submarine's sensor stream:
`list(errors.values())`, each value `(sensor_failures, error_occurences)`. -/
def count_sensor_errors (lines : List String) : List (Nat × Nat) :=
  (sensorErrorsAssoc lines).map (fun e => e.2)

/-- The distinct elements of a list, keeping first occurrences in
first-seen order. -/
def dedupFirst : List String → List String
  | [] => []
  | a :: rest => a :: (dedupFirst rest).filter (fun b => b != a)

/-- The aggregation described by the spec: one entry per distinct faulty
line in first-seen order, carrying the line's zero count and its total
number of occurrences in the stream. -/
def sensorSpecAssoc (lines : List String) : List (String × Nat × Nat) :=
  (dedupFirst (lines.filter has0)).map (fun l => (l, countZeros l, lines.count l))

theorem mem_dedupFirst (a : String) : ∀ xs : List String, a ∈ dedupFirst xs ↔ a ∈ xs := by
  intro xs
  induction xs with
  | nil => simp [dedupFirst]
  | cons x rest ih =>
    simp only [dedupFirst, List.mem_cons, List.mem_filter, bne_iff_ne, ih]
    constructor
    · rintro (h | ⟨h1, _⟩)
      · exact Or.inl h
      · exact Or.inr h1
    · rintro (h | h)
      · exact Or.inl h
      · by_cases hax : a = x
        · exact Or.inl hax
        · exact Or.inr ⟨h, hax⟩

theorem nodup_dedupFirst : ∀ xs : List String, (dedupFirst xs).Nodup := by
  intro xs
  induction xs with
  | nil => simp [dedupFirst]
  | cons x rest ih =>
    simp only [dedupFirst, List.nodup_cons]
    constructor
    · intro hmem
      have := (List.mem_filter.mp hmem).2
      rw [bne_iff_ne] at this
      exact this rfl
    · exact ih.filter _

theorem dedupFirst_append_singleton (a : String) :
    ∀ xs : List String,
      dedupFirst (xs ++ [a]) =
        if a ∈ xs then dedupFirst xs else dedupFirst xs ++ [a] := by
  intro xs
  induction xs with
  | nil => simp [dedupFirst]
  | cons x rest ih =>
    have hstep : dedupFirst ((x :: rest) ++ [a]) =
        x :: (dedupFirst (rest ++ [a])).filter (fun b => b != x) := rfl
    have hstep2 : dedupFirst (x :: rest) =
        x :: (dedupFirst rest).filter (fun b => b != x) := rfl
    rw [hstep, ih, hstep2]
    by_cases har : a ∈ rest
    · rw [if_pos har, if_pos (List.mem_cons_of_mem _ har)]
    · rw [if_neg har]
      by_cases hax : a = x
      · rw [if_pos (by rw [hax]; exact List.mem_cons_self x rest)]
        rw [List.filter_append]
        have h1 : List.filter (fun b => b != x) [a] = [] := by
          subst hax
          simp
        rw [h1, List.append_nil]
      · rw [if_neg (by
          intro hmem
          rcases List.mem_cons.mp hmem with h | h
          · exact hax h
          · exact har h)]
        rw [List.filter_append]
        have h1 : List.filter (fun b => b != x) [a] = [a] := by
          simp [hax]
        rw [h1, List.cons_append]

theorem findErrorEntry_map (g : String → Nat × Nat) (a : String) :
    ∀ ks : List String,
      findErrorEntry (ks.map (fun l => (l, g l))) a =
        if a ∈ ks then some (g a) else none := by
  intro ks
  induction ks with
  | nil => simp [findErrorEntry]
  | cons k rest ih =>
    show (if k = a then some (g k) else findErrorEntry (rest.map (fun l => (l, g l))) a) = _
    by_cases hk : k = a
    · subst hk
      rw [if_pos rfl, if_pos (List.mem_cons_self k rest)]
    · rw [if_neg hk, ih]
      by_cases ha : a ∈ rest
      · rw [if_pos ha, if_pos (List.mem_cons_of_mem _ ha)]
      · rw [if_neg ha, if_neg (by
          intro hmem
          rcases List.mem_cons.mp hmem with h | h
          · exact hk h.symm
          · exact ha h)]

theorem bumpOccurrence_map (g : String → Nat × Nat) (a : String) :
    ∀ ks : List String, ks.Nodup →
      bumpOccurrence (ks.map (fun l => (l, g l))) a =
        ks.map (fun l => (l, (g l).1, if l = a then (g l).2 + 1 else (g l).2)) := by
  intro ks
  induction ks with
  | nil => intro _; rfl
  | cons k rest ih =>
    intro hnd
    rw [List.nodup_cons] at hnd
    show (if k = a then (k, (g k).1, (g k).2 + 1) :: rest.map (fun l => (l, g l))
          else (k, g k) :: bumpOccurrence (rest.map (fun l => (l, g l))) a) = _
    by_cases hk : k = a
    · subst hk
      rw [if_pos rfl, List.map_cons, if_pos rfl]
      congr 1
      apply List.map_congr_left
      intro l hl
      have hlk : l ≠ k := fun h => hnd.1 (h ▸ hl)
      rw [if_neg hlk]
    · rw [if_neg hk, ih hnd.2, List.map_cons, if_neg hk]

theorem mem_of_mem_dedupFirst_filter {l : String} {p : List String}
    (hl : l ∈ dedupFirst (p.filter has0)) : l ∈ p ∧ has0 l = true := by
  have := (mem_dedupFirst l _).mp hl
  exact ⟨(List.mem_filter.mp this).1, (List.mem_filter.mp this).2⟩

theorem sensorStep_spec (p : List String) (line : String) :
    sensorStep (sensorSpecAssoc p) line = sensorSpecAssoc (p ++ [line]) := by
  by_cases h0 : has0 line = true
  · by_cases hmem : line ∈ p.filter has0
    · -- recurring faulty line: occurrence count bumped, keys unchanged
      have hkey : line ∈ dedupFirst (p.filter has0) := (mem_dedupFirst _ _).mpr hmem
      unfold sensorStep sensorSpecAssoc
      rw [if_pos h0, findErrorEntry_map, if_pos hkey, if_pos (Option.isSome_some)]
      rw [bumpOccurrence_map _ _ _ (nodup_dedupFirst _)]
      rw [List.filter_append]
      have hf1 : List.filter has0 [line] = [line] := by simp [h0]
      rw [hf1, dedupFirst_append_singleton, if_pos hmem]
      apply List.map_congr_left
      intro l hl
      by_cases hll : l = line
      · rw [if_pos hll, hll]
        simp [List.count_append, List.count_cons]
      · rw [if_neg hll]
        rw [List.count_append, List.count_singleton', if_neg (Ne.symm hll), Nat.add_zero]
    · -- first occurrence of a faulty line: new entry appended
      have hkey : line ∉ dedupFirst (p.filter has0) :=
        fun h => hmem ((mem_dedupFirst _ _).mp h)
      have hnp : line ∉ p := by
        intro hp
        exact hmem (List.mem_filter.mpr ⟨hp, h0⟩)
      unfold sensorStep sensorSpecAssoc
      rw [if_pos h0, findErrorEntry_map, if_neg hkey, if_neg (by simp)]
      rw [List.filter_append]
      have hf1 : List.filter has0 [line] = [line] := by simp [h0]
      rw [hf1, dedupFirst_append_singleton, if_neg hmem, List.map_append]
      congr 1
      · apply List.map_congr_left
        intro l hl
        have hlp := (mem_of_mem_dedupFirst_filter hl).1
        have hll : l ≠ line := fun h => hnp (h ▸ hlp)
        rw [List.count_append, List.count_singleton', if_neg (Ne.symm hll), Nat.add_zero]
      · have hc0 : p.count line = 0 := List.count_eq_zero.mpr hnp
        simp [List.count_append, hc0]
  · -- healthy line: dropped, counts of faulty lines unchanged
    unfold sensorStep sensorSpecAssoc
    rw [if_neg h0, List.filter_append]
    have hf1 : List.filter has0 [line] = [] := by
      simp [List.filter_cons, h0]
    rw [hf1, List.append_nil]
    apply List.map_congr_left
    intro l hl
    have hlf := (mem_of_mem_dedupFirst_filter hl).2
    have hll : l ≠ line := fun h => h0 (h ▸ hlf)
    rw [List.count_append, List.count_singleton', if_neg (Ne.symm hll), Nat.add_zero]

theorem sensorErrorsAssoc_eq_spec (lines : List String) :
    sensorErrorsAssoc lines = sensorSpecAssoc lines := by
  induction lines using List.reverseRecOn with
  | nil => rfl
  | append_singleton xs x ih =>
    unfold sensorErrorsAssoc at ih ⊢
    rw [List.foldl_append, List.foldl_cons, List.foldl_nil, ih, sensorStep_spec]

/-- **C6.** `count_sensor_errors` returns one `(failed_sensor_count,
occurrence_count)` entry per distinct line containing a `'0'`, in
first-seen order, where the failure count is the number of `'0'`
characters of the line and the occurrence count is the line's multiplicity
in the stream; the stream `["00000000", "11111111", "00000000"]` yields
exactly `[(8, 2)]`. -/
theorem c6_sensor_error_aggregation :
    (∀ lines : List String,
      count_sensor_errors lines =
        (dedupFirst (lines.filter has0)).map (fun l => (countZeros l, lines.count l))) ∧
    count_sensor_errors ["00000000", "11111111", "00000000"] = [(8, 2)] := by
  constructor
  · intro lines
    unfold count_sensor_errors
    rw [sensorErrorsAssoc_eq_spec]
    unfold sensorSpecAssoc
    rw [List.map_map]
    rfl
  · decide

/-! ### Claims C7, C8: the nuke authorizer -/

/-- The line scan of `_find_my_secret_key` / `_find_my_activation_code`
over a secret store of `identifier:value` lines (modelled parsed into
pairs): first matching identifier wins, a miss raises `LookupError`. -/
def findSecret : List (String × String) → String → Except PyError String
  | [], _ => .error .lookupError
  | e :: rest, sn => if e.1 = sn then .ok e.2 else findSecret rest sn

/-- `_Submarine.ready_nuke`, given the two secret stores (the files are
assumed present; a missing file is a `FileNotFoundError` precondition
outside this core), the current date string and the abstract SHA-256
hex-digest function `h`. It hashes `date + secret_key + activation_code`
and compares the hex digest with the caller-supplied one. -/
def Submarine.ready_nuke (sub : Submarine) (h : String → String) (dateStr : String)
    (keyStore codeStore : List (String × String)) (hex_str : String) :
    Except PyError Bool :=
  match findSecret keyStore sub.serial_number with
  | .error e => .error e
  | .ok key =>
    match findSecret codeStore sub.serial_number with
    | .error e => .error e
    | .ok code => .ok (h (dateStr ++ key ++ code) == hex_str)

/-- `SubmarineSystem.activate_nuke`: hashes the caller's `auth_string`,
fetches the submarine with `_get_sub` (no `None` check: an unregistered
serial makes `sub.ready_nuke(...)` an attribute access on `None`, i.e.
`AttributeError`) and asks it to ready the nuke; the returned `Bool` is
the printed success/failure. -/
def activate_nuke (sys : SystemState) (h : String → String) (dateStr : String)
    (keyStore codeStore : List (String × String)) (sn : String)
    (auth_string : String) : Except PyError Bool :=
  let sha := h auth_string
  match sys.get_sub sn with
  | none => .error .attributeError
  | some sub => sub.ready_nuke h dateStr keyStore codeStore sha

/-- **C7.** For a registered submarine whose secret key and activation
code both resolve, nuke authorization succeeds (returns `True`) exactly
when the hex digest of `current_date + secret_key + activation_code`
equals the hex digest of the caller's credential, and returns `False`
exactly otherwise: there is no third outcome. -/
theorem c7_nuke_authorization (sys : SystemState) (h : String → String)
    (dateStr : String) (keyStore codeStore : List (String × String))
    (sn cred : String) (sub : Submarine) (key code : String)
    (hget : sys.get_sub sn = some sub)
    (hkey : findSecret keyStore sub.serial_number = .ok key)
    (hcode : findSecret codeStore sub.serial_number = .ok code) :
    (activate_nuke sys h dateStr keyStore codeStore sn cred = .ok true ↔
      h (dateStr ++ key ++ code) = h cred) ∧
    (activate_nuke sys h dateStr keyStore codeStore sn cred = .ok false ↔
      h (dateStr ++ key ++ code) ≠ h cred) := by
  have hstep : activate_nuke sys h dateStr keyStore codeStore sn cred =
      sub.ready_nuke h dateStr keyStore codeStore (h cred) := by
    unfold activate_nuke
    rw [hget]
  have hstep2 : sub.ready_nuke h dateStr keyStore codeStore (h cred) =
      .ok (h (dateStr ++ key ++ code) == h cred) := by
    unfold Submarine.ready_nuke
    rw [hkey, hcode]
  rw [hstep, hstep2]
  constructor
  · constructor
    · intro hok
      exact beq_iff_eq.mp (Except.ok.inj hok)
    · intro heq
      rw [beq_iff_eq.mpr heq]
  · constructor
    · intro hok
      exact beq_eq_false_iff_ne.mp (Except.ok.inj hok)
    · intro hne
      rw [beq_eq_false_iff_ne.mpr hne]

/-- Witness for `c7_nuke_authorization`: identity stand-in for the digest
function, a one-entry fleet and one-entry secret stores. -/
theorem c7_nuke_authorization_witness :
    (activate_nuke ⟨[("11111111-11", mkSubmarine "11111111-11")], [], []⟩
        (fun s => s) "2026-10-12" [("11111111-11", "key")] [("11111111-11", "code")]
        "11111111-11" "2026-10-12keycode" = .ok true ↔
      ((fun s : String => s) ("2026-10-12" ++ "key" ++ "code") =
        (fun s : String => s) "2026-10-12keycode")) ∧
    (activate_nuke ⟨[("11111111-11", mkSubmarine "11111111-11")], [], []⟩
        (fun s => s) "2026-10-12" [("11111111-11", "key")] [("11111111-11", "code")]
        "11111111-11" "2026-10-12keycode" = .ok false ↔
      ((fun s : String => s) ("2026-10-12" ++ "key" ++ "code") ≠
        (fun s : String => s) "2026-10-12keycode")) :=
  c7_nuke_authorization ⟨[("11111111-11", mkSubmarine "11111111-11")], [], []⟩
    (fun s => s) "2026-10-12" [("11111111-11", "key")] [("11111111-11", "code")]
    "11111111-11" "2026-10-12keycode" (mkSubmarine "11111111-11") "key" "code"
    (by decide) (by decide) (by decide)

/-- **C8.** The code at the claim's failing input: `activate_nuke` with an
unregistered serial number does *not* raise the `LookupError` the claim
requires — `_get_sub` returns `None` and `sub.ready_nuke(...)` raises
`AttributeError`, whether or not other submarines are registered. -/
theorem c8_activate_nuke_unregistered_attribute_error :
    activate_nuke ⟨[], [], []⟩ (fun s => s) "2026-10-12" [] [] "00000000-00" "x" =
      .error .attributeError ∧
    activate_nuke ⟨[("11111111-11", mkSubmarine "11111111-11")], [], []⟩
        (fun s => s) "2026-10-12" [] [] "00000000-00" "x" =
      .error .attributeError := by
  constructor <;> rfl

/-! ### Claim C10: the collision logger -/

/-- Dict update `self._submarines[sn] = sub` for a key already present:
replace the stored object (first occurrence). -/
def setSub : List (String × Submarine) → String → Submarine → List (String × Submarine)
  | [], _, _ => []
  | e :: rest, sn, s => if e.1 = sn then (e.1, s) :: rest else e :: setSub rest sn s

/-- `SubmarineSystem.move_submarine_by_reports` decorated by
`_collision_logger`, with the parsed movement report lines passed in. The
wrapped body looks the submarine up (raising `LookupError` if absent) and
applies every report with `sub.move`; the wrapper then reads the *final*
position and either records a collision (the position is already a key of
`_occupied_positions`) or inserts the position into the index. On a
collision the occupied-position index is left unchanged and the submarine
is appended to `_collided_submarines`. -/
def move_submarine_by_reports (sys : SystemState) (sn : String)
    (reports : List (String × Nat)) : Except PyError SystemState :=
  match sys.get_sub sn with
  | none => .error .lookupError
  | some sub =>
    let sub2 := runMoves sub reports
    let subs2 := setSub sys.submarines sn sub2
    if sys.occupied_positions.contains sub2.position then
      .ok ⟨subs2, sys.occupied_positions, sys.collided_submarines ++ [sub2]⟩
    else
      .ok ⟨subs2, sys.occupied_positions ++ [sub2.position], sys.collided_submarines⟩

/-- **C10.** The occupied-position index stores bare cells, with no record
of which submarine finalized on them: whenever the firing submarine's
final cell after a report batch is already in the index it is appended to
the collided list — and in particular a single registered submarine run
through `move_submarine_by_reports` twice with zero net movement is
recorded as having collided with itself on the second run. -/
theorem c10_self_collision (sys : SystemState) (sn : String) (sub : Submarine)
    (reports : List (String × Nat))
    (hget : sys.get_sub sn = some sub)
    (hocc : sys.occupied_positions.contains (runMoves sub reports).position = true) :
    move_submarine_by_reports sys sn reports =
      .ok ⟨setSub sys.submarines sn (runMoves sub reports),
           sys.occupied_positions,
           sys.collided_submarines ++ [runMoves sub reports]⟩ ∧
    move_submarine_by_reports
        ⟨[("33333333-33", mkSubmarine "33333333-33")], [], []⟩ "33333333-33" [] =
      .ok ⟨[("33333333-33", mkSubmarine "33333333-33")], [((0 : Int), (0 : Int))], []⟩ ∧
    move_submarine_by_reports
        ⟨[("33333333-33", mkSubmarine "33333333-33")], [((0 : Int), (0 : Int))], []⟩
        "33333333-33" [] =
      .ok ⟨[("33333333-33", mkSubmarine "33333333-33")], [((0 : Int), (0 : Int))],
           [mkSubmarine "33333333-33"]⟩ := by
  refine ⟨?_, by decide, by decide⟩
  unfold move_submarine_by_reports
  rw [hget]
  simp only [hocc, if_pos]

/-- Witness for `c10_self_collision`: the second of the two zero-movement
runs from the conclusion itself, applied as the concrete input. -/
theorem c10_self_collision_witness :
    (move_submarine_by_reports
        ⟨[("33333333-33", mkSubmarine "33333333-33")], [((0 : Int), (0 : Int))], []⟩
        "33333333-33" [] =
      .ok ⟨setSub [("33333333-33", mkSubmarine "33333333-33")] "33333333-33"
            (runMoves (mkSubmarine "33333333-33") []),
           [((0 : Int), (0 : Int))],
           [] ++ [runMoves (mkSubmarine "33333333-33") []]⟩ ∧
    move_submarine_by_reports
        ⟨[("33333333-33", mkSubmarine "33333333-33")], [], []⟩ "33333333-33" [] =
      .ok ⟨[("33333333-33", mkSubmarine "33333333-33")], [((0 : Int), (0 : Int))], []⟩ ∧
    move_submarine_by_reports
        ⟨[("33333333-33", mkSubmarine "33333333-33")], [((0 : Int), (0 : Int))], []⟩
        "33333333-33" [] =
      .ok ⟨[("33333333-33", mkSubmarine "33333333-33")], [((0 : Int), (0 : Int))],
           [mkSubmarine "33333333-33"]⟩) :=
  c10_self_collision
    ⟨[("33333333-33", mkSubmarine "33333333-33")], [((0 : Int), (0 : Int))], []⟩
    "33333333-33" (mkSubmarine "33333333-33") [] (by decide) (by decide)

end SubmarineSys
